import Mathlib

/-!
Shallow embedding of the RIFT governance validation engine
(src/poc/rift_governance_validator.py) and of the RIFT-Bridge dependency
resolver (src/rift-old/rift-bridge/tools/hoc/bootstrap.py, class TreeResolver),
together with proofs settling the frozen claims C1-C10 about them.

Modelling conventions:
- JSON values are modelled by the inductive `JVal`; a parsed JSON object
  (Python dict produced by json.load) is an association list `ConfigData`
  with distinct keys, looked up with `List.lookup`.
- Python exceptions that the source code does NOT catch are modelled by the
  error side of `Except PyErr _`; exceptions the code catches are folded
  into the corresponding handler's result, exactly as the handler does.
- The filesystem is a finite map from path strings to file contents; a file
  is either readable JSON (`Except.ok data`) or unreadable/malformed
  (`Except.error ()`, which makes json.load raise JSONDecodeError).
- datetime values are represented by seconds on a single linear time scale
  (`PyDateTime.sec`) plus an awareness flag; `fromisoformat` models
  datetime.datetime.fromisoformat restricted to the full
  YYYY-MM-DDTHH:MM:SS[±HH:MM] grammar (the forms the descriptors use);
  every other string is a parse failure (ValueError), as in Python.
- The external nlink tool is an oracle in the environment: for given package
  and version it either exits with a code, times out, or is absent.
-/

namespace Rift

/-- JSON values as produced by json.load. -/
inductive JVal where
  | str (s : String)
  | num (n : Int)
  | bool (b : Bool)
  | null
  | arr (xs : List JVal)
  | obj (kvs : List (String × JVal))

/-- A parsed JSON object (Python dict): association list with distinct keys. -/
abbrev ConfigData := List (String × JVal)

/-- Python truthiness of a JSON value (bool(v)). -/
def jtruthy : JVal → Bool
  | .str s => s != ""
  | .num n => n != 0
  | .bool b => b
  | .null => false
  | .arr xs => !xs.isEmpty
  | .obj kvs => !kvs.isEmpty

/-- Python truthiness of dict.get's result (None when the key is absent). -/
def truthyO : Option JVal → Bool
  | none => false
  | some v => jtruthy v

/-- Rendering of a JSON value inside an f-string.  Strings and scalars are
rendered as Python renders them; containers are abbreviated (no claim
depends on the rendering of a container used as a name). -/
def pyStr : JVal → String
  | .str s => s
  | .num n => toString n
  | .bool true => "True"
  | .bool false => "False"
  | .null => "None"
  | .arr _ => "<list>"
  | .obj _ => "<dict>"

/-- StageType enum of the validator. -/
inductive StageType where
  | LEGACY
  | EXPERIMENTAL
  | STABLE
deriving DecidableEq

/-- ValidationResult enum of the validator. -/
inductive ValidationResult where
  | VALID
  | EXPIRED
  | INVALID_SCHEMA
  | SEMVERX_VIOLATION
  | MISSING_GOVERNANCE
deriving DecidableEq

/-- Uncaught Python exceptions relevant to the validator, plus the
RuntimeError raised by _trigger_build_halt (carrying the halting stage). -/
inductive PyErr where
  | valueError
  | typeError
  | attributeError
  | keyError
  | jsonDecodeError
  | runtimeHalt (stage : Nat)
deriving DecidableEq

/-- Result of invoking the external nlink tool. -/
inductive NlinkOutcome where
  | exit (code : Int)
  | timeout
  | absent
deriving DecidableEq

/-- GovernanceConfig dataclass.  Field values keep their JSON form, since
Python performs no coercion.  The Python dataclass has NO stage_5_optimizer
field and _parse_governance_config never sets such an attribute; the
dynamic attribute tested by hasattr in _validate_stage5_security_governance
is modelled by the Option field below, `none` meaning the attribute is
absent. -/
structure GovernanceConfig where
  package_name : JVal
  version : JVal
  timestamp : JVal
  stage : JVal
  stage_type : StageType
  semverx_lock : JVal
  entry_point : JVal
  nlink_enabled : JVal
  custom_stages : JVal
  stage_5_optimizer : Option JVal := none

/-- _validate_required_fields: all four mandatory keys present. -/
def validateRequiredFields (data : ConfigData) : Bool :=
  ["package_name", "version", "stage", "timestamp"].all
    (fun k => (data.lookup k).isSome)

/-- StageType(config_data.get("stage_type", "experimental")): the enum
constructor raises ValueError on any unrecognized value. -/
def parseStageType : Option JVal → Except PyErr StageType
  | none => .ok .EXPERIMENTAL
  | some (.str "legacy") => .ok .LEGACY
  | some (.str "experimental") => .ok .EXPERIMENTAL
  | some (.str "stable") => .ok .STABLE
  | some _ => .error .valueError

/-- config_data[k]: raises KeyError when the key is absent. -/
def getKey (data : ConfigData) (k : String) : Except PyErr JVal :=
  match data.lookup k with
  | some v => .ok v
  | none => .error .keyError

/-- _parse_governance_config.  Arguments of the GovernanceConfig(...) call
are evaluated in source order; the first raising one wins.  Note that the
constructed object carries no stage_5_optimizer attribute. -/
def parseGovernanceConfig (data : ConfigData) : Except PyErr GovernanceConfig :=
  match getKey data "package_name" with
  | .error e => .error e
  | .ok pn =>
    match getKey data "version" with
    | .error e => .error e
    | .ok ver =>
      match getKey data "timestamp" with
      | .error e => .error e
      | .ok ts =>
        match getKey data "stage" with
        | .error e => .error e
        | .ok stg =>
          match parseStageType (data.lookup "stage_type") with
          | .error e => .error e
          | .ok sty =>
            .ok { package_name := pn,
                  version := ver,
                  timestamp := ts,
                  stage := stg,
                  stage_type := sty,
                  semverx_lock := (data.lookup "semverx_lock").getD (.bool false),
                  entry_point := (data.lookup "entry_point").getD (.str ""),
                  nlink_enabled := (data.lookup "nlink_enabled").getD (.bool false),
                  custom_stages := (data.lookup "custom_stages").getD (.arr []),
                  stage_5_optimizer := none }

/-- Numeric value of a decimal digit character. -/
def digitVal (c : Char) : Nat := c.toNat - '0'.toNat

/-- Two-digit decimal number. -/
def num2 (a b : Char) : Nat := 10 * digitVal a + digitVal b

/-- Four-digit decimal number. -/
def num4 (a b c d : Char) : Nat :=
  1000 * digitVal a + 100 * digitVal b + 10 * digitVal c + digitVal d

/-- All characters are decimal digits. -/
def allDigits (cs : List Char) : Bool := cs.all Char.isDigit

/-- Gregorian leap year. -/
def isLeapYear (y : Nat) : Bool := (y % 4 == 0 && y % 100 != 0) || y % 400 == 0

/-- Days in a month of the proleptic Gregorian calendar. -/
def daysInMonth (y m : Nat) : Nat :=
  if m = 2 then (if isLeapYear y then 29 else 28)
  else if m = 4 ∨ m = 6 ∨ m = 9 ∨ m = 11 then 30 else 31

/-- Day count of a civil date on a fixed linear scale (shifted-March-year
formula; only differences of day counts are ever used). -/
def daysFromCivil (y m d : Nat) : Nat :=
  let y' := if m ≤ 2 then y - 1 else y
  let mp := if m ≤ 2 then m + 9 else m - 3
  365 * y' + y' / 4 + y' / 400 + (153 * mp + 2) / 5 + (d - 1) - y' / 100

/-- Second count of a civil date-time on the same fixed linear scale. -/
def datetimeToSec (y m d hh mi ss : Nat) : Nat :=
  86400 * daysFromCivil y m d + 3600 * hh + 60 * mi + ss

/-- A Python datetime: absolute (for aware) or wall-clock (for naive)
seconds on the fixed linear scale, plus the awareness flag. -/
structure PyDateTime where
  sec : Int
  aware : Bool
deriving DecidableEq

/-- str.replace('Z', '+00:00') on the character list (replaces every
occurrence, as Python's str.replace does). -/
def pyReplaceZChars : List Char → List Char
  | [] => []
  | 'Z' :: rest => '+' :: '0' :: '0' :: ':' :: '0' :: '0' :: pyReplaceZChars rest
  | c :: rest => c :: pyReplaceZChars rest

/-- str.replace('Z', '+00:00'). -/
def pyReplaceZ (s : String) : String := String.mk (pyReplaceZChars s.data)

/-- Wall-clock seconds of a date-time given by its digit characters, with
the range validation fromisoformat performs; none is a ValueError. -/
def checkedWallSec (y1 y2 y3 y4 mo1 mo2 d1 d2 h1 h2 mi1 mi2 s1 s2 : Char) :
    Option Nat :=
  if allDigits [y1, y2, y3, y4, mo1, mo2, d1, d2, h1, h2, mi1, mi2, s1, s2] then
    let y := num4 y1 y2 y3 y4
    let mo := num2 mo1 mo2
    let d := num2 d1 d2
    let hh := num2 h1 h2
    let mi := num2 mi1 mi2
    let ss := num2 s1 s2
    if 1 ≤ y ∧ 1 ≤ mo ∧ mo ≤ 12 ∧ 1 ≤ d ∧ d ≤ daysInMonth y mo ∧
        hh ≤ 23 ∧ mi ≤ 59 ∧ ss ≤ 59 then
      some (datetimeToSec y mo d hh mi ss)
    else none
  else none

/-- UTC offset in seconds given by sign and digit characters; none is a
ValueError. -/
def parsedOffset (sg o1 o2 o3 o4 : Char) : Option Int :=
  if (sg = '+' ∨ sg = '-') ∧ allDigits [o1, o2, o3, o4] then
    let hh := num2 o1 o2
    let mi := num2 o3 o4
    if hh ≤ 23 ∧ mi ≤ 59 then
      let mag : Int := 3600 * hh + 60 * mi
      some (if sg = '-' then -mag else mag)
    else none
  else none

/-- datetime.datetime.fromisoformat, restricted to the grammar
YYYY-MM-DDTHH:MM:SS with optional ±HH:MM offset (the descriptor formats);
none models ValueError.  An offset yields an aware datetime whose absolute
seconds subtract the offset; no offset yields a naive datetime. -/
def fromisoformat (s : String) : Option PyDateTime :=
  match s.data with
  | [y1, y2, y3, y4, '-', mo1, mo2, '-', d1, d2, 'T',
     h1, h2, ':', mi1, mi2, ':', s1, s2] =>
    match checkedWallSec y1 y2 y3 y4 mo1 mo2 d1 d2 h1 h2 mi1 mi2 s1 s2 with
    | some w => some { sec := (w : Int), aware := false }
    | none => none
  | [y1, y2, y3, y4, '-', mo1, mo2, '-', d1, d2, 'T',
     h1, h2, ':', mi1, mi2, ':', s1, s2, sg, o1, o2, ':', o3, o4] =>
    match checkedWallSec y1 y2 y3 y4 mo1 mo2 d1 d2 h1 h2 mi1 mi2 s1 s2,
          parsedOffset sg o1 o2 o3 o4 with
    | some w, some off => some { sec := (w : Int) - off, aware := true }
    | _, _ => none
  | _ => none

/-- _validate_timestamp_freshness.  Only ValueError is caught (returning
False, i.e. expired); subtracting a naive timestamp from the aware
current time raises an uncaught TypeError, and calling .replace on a
non-string timestamp raises an uncaught AttributeError. -/
def validateTimestampFreshness (now : Int) (ts : JVal) : Except PyErr Bool :=
  match ts with
  | .str s =>
    match fromisoformat (pyReplaceZ s) with
    | none => .ok false
    | some dt =>
      if dt.aware then .ok (decide (now - dt.sec < 90 * 86400))
      else .error .typeError
  | _ => .error .attributeError

/-- Execution environment of one validator run: project root, filesystem
(path to file contents; a file is readable JSON or malformed), current UTC
time on the fixed linear scale, and the external nlink oracle (queried
with the package and version of the descriptor). -/
structure Env where
  root : String
  fs : List (String × Except Unit ConfigData)
  now : Int
  nlink : JVal → JVal → NlinkOutcome

/-- os.path.exists / open on the modelled filesystem. -/
def fsLookup (env : Env) (path : String) : Option (Except Unit ConfigData) :=
  env.fs.lookup path

/-- _validate_semverx_compliance: skip (True) when nlink is not enabled;
otherwise delegate to the nlink tool, compliant exactly on exit code 0;
timeout and tool-not-found are caught and treated as non-compliant. -/
def validateSemverxCompliance (env : Env) (config : GovernanceConfig) : Bool :=
  if !(jtruthy config.nlink_enabled) then true
  else
    match env.nlink config.package_name config.version with
    | .exit c => c == 0
    | .timeout => false
    | .absent => false

/-- validate_governance_file.  JSONDecodeError, FileNotFoundError and
KeyError are caught and yield (INVALID_SCHEMA, None); any other exception
(ValueError from StageType, TypeError/AttributeError from the freshness
check) propagates. -/
def validateGovernanceFile (env : Env) (path : String) :
    Except PyErr (ValidationResult × Option GovernanceConfig) :=
  match fsLookup env path with
  | none => .ok (.INVALID_SCHEMA, none)
  | some (.error _) => .ok (.INVALID_SCHEMA, none)
  | some (.ok data) =>
    if !(validateRequiredFields data) then .ok (.INVALID_SCHEMA, none)
    else
      match parseGovernanceConfig data with
      | .error .keyError => .ok (.INVALID_SCHEMA, none)
      | .error e => .error e
      | .ok config =>
        match validateTimestampFreshness env.now config.timestamp with
        | .error e => .error e
        | .ok fresh =>
          if !fresh then .ok (.EXPIRED, some config)
          else if jtruthy config.semverx_lock &&
              !(validateSemverxCompliance env config) then
            .ok (.SEMVERX_VIOLATION, some config)
          else .ok (.VALID, some config)

/-- _validate_stage5_security_governance.  The argument is the config slot
returned by validate_governance_file (possibly None).  hasattr(config,
'stage_5_optimizer') is modelled by the stage_5_optimizer Option being
some; it is False on None and on every parser-produced config.  Using
`field not in optimizer_config` on a non-dict raises TypeError. -/
def validateStage5SecurityGovernance (env : Env)
    (config : Option GovernanceConfig) : Except PyErr ValidationResult :=
  match config with
  | none => .ok .MISSING_GOVERNANCE
  | some cfg =>
    match cfg.stage_5_optimizer with
    | none => .ok .MISSING_GOVERNANCE
    | some (.obj opt) =>
      if !(["optimizer_model", "minimization_verified", "audit_enabled"].all
          (fun k => (opt.lookup k).isSome)) then
        .ok .INVALID_SCHEMA
      else if !(jtruthy ((opt.lookup "minimization_verified").getD (.bool false))) then
        .ok .SEMVERX_VIOLATION
      else if jtruthy ((opt.lookup "audit_enabled").getD (.bool true)) then
        if (fsLookup env (env.root ++ "/logs/opt_trace.sig")).isSome then
          .ok .VALID
        else .ok .MISSING_GOVERNANCE
      else .ok .VALID
    | some _ => .error .typeError

/-- primary_config.get("stage_type") == "experimental": true exactly when
the key holds the string "experimental". -/
def isExperimentalTag : Option JVal → Bool
  | some (.str s) => s == "experimental"
  | _ => false

/-- Path of the fallback governance descriptor of a substage. -/
def fallbackPath (env : Env) (stageId : Nat) (substage : String) : String :=
  env.root ++ "/irift/gov." ++ substage ++ ".stage.riftrc." ++ toString stageId

/-- Path of the primary descriptor of a stage. -/
def primaryPath (env : Env) (stageId : Nat) : String :=
  env.root ++ "/.riftrc." ++ toString stageId

/-- _handle_missing_governance.  A fallback descriptor's outcome is
returned unchanged.  With no fallback, the primary descriptor is loaded
WITHOUT a try block, so a malformed primary raises JSONDecodeError. -/
def handleMissingGovernance (env : Env) (stageId : Nat) (substage : String) :
    Except PyErr ValidationResult :=
  match fsLookup env (fallbackPath env stageId substage) with
  | some _ =>
    (match validateGovernanceFile env (fallbackPath env stageId substage) with
     | .error e => .error e
     | .ok (r, _) => .ok r)
  | none =>
    match fsLookup env (primaryPath env stageId) with
    | none => .ok .MISSING_GOVERNANCE
    | some (.error _) => .error .jsonDecodeError
    | some (.ok data) =>
      if isExperimentalTag (data.lookup "stage_type") then .ok .VALID
      else .ok .MISSING_GOVERNANCE

/-- The fixed substage map of validate_stage_governance. -/
def substageMapping : Nat → Option (List String)
  | 0 => some ["tokenizer"]
  | 1 => some ["parser"]
  | 2 => some ["semantic"]
  | 3 => some ["validator"]
  | 4 => some ["bytecode"]
  | 5 => some ["optimizer", "verifier"]
  | 6 => some ["emitter"]
  | _ => none

/-- The substage loop of validate_stage_governance, accumulating the
results dict (keys are pairwise distinct within a stage, so a list of
pairs in insertion order is faithful). -/
def stageSubLoop (env : Env) (stageId : Nat) :
    List String → List (String × ValidationResult) →
    Except PyErr (List (String × ValidationResult))
  | [], acc => .ok acc
  | sub :: rest, acc =>
    match fsLookup env (env.root ++ "/gov." ++ sub ++ ".stage.riftrc." ++
        toString stageId) with
    | some _ =>
      (match validateGovernanceFile env (env.root ++ "/gov." ++ sub ++
          ".stage.riftrc." ++ toString stageId) with
       | .error e => .error e
       | .ok (r, config) =>
         let acc1 := acc ++ [(sub ++ "_governance", r)]
         if stageId == 5 && sub == "optimizer" then
           match validateStage5SecurityGovernance env config with
           | .error e => .error e
           | .ok sr => stageSubLoop env stageId rest
               (acc1 ++ [("optimizer_security", sr)])
         else stageSubLoop env stageId rest acc1)
    | none =>
      match handleMissingGovernance env stageId sub with
      | .error e => .error e
      | .ok fr => stageSubLoop env stageId rest (acc ++ [(sub ++ "_fallback", fr)])

/-- validate_stage_governance. -/
def validateStageGovernance (env : Env) (stageId : Nat) :
    Except PyErr (List (String × ValidationResult)) :=
  match
    (match fsLookup env (primaryPath env stageId) with
     | none => .ok []
     | some _ =>
       match validateGovernanceFile env (primaryPath env stageId) with
       | .error e => .error e
       | .ok (r, _) =>
         .ok [("stage_" ++ toString stageId ++ "_primary", r)] :
      Except PyErr (List (String × ValidationResult))) with
  | .error e => .error e
  | .ok acc0 =>
    match substageMapping stageId with
    | none => .ok acc0
    | some subs => stageSubLoop env stageId subs acc0

/-- The critical-failure scan of validate_complete_pipeline (the same
condition _trigger_build_halt re-checks before raising). -/
def hasCriticalFailure (rs : List (String × ValidationResult)) : Bool :=
  rs.any (fun p => p.2 == ValidationResult.SEMVERX_VIOLATION ||
    p.2 == ValidationResult.EXPIRED)

/-- The stage loop of validate_complete_pipeline: after each stage, any
SEMVERX_VIOLATION or EXPIRED outcome makes _trigger_build_halt raise
RuntimeError, abandoning the accumulated results. -/
def pipelineGo (env : Env) :
    List Nat → List (Nat × List (String × ValidationResult)) →
    Except PyErr (List (Nat × List (String × ValidationResult)))
  | [], acc => .ok acc
  | s :: rest, acc =>
    match validateStageGovernance env s with
    | .error e => .error e
    | .ok r =>
      if hasCriticalFailure r then .error (.runtimeHalt s)
      else pipelineGo env rest (acc ++ [(s, r)])

/-- validate_complete_pipeline: stages 0 through 6 in order. -/
def validateCompletePipeline (env : Env) :
    Except PyErr (List (Nat × List (String × ValidationResult))) :=
  pipelineGo env [0, 1, 2, 3, 4, 5, 6] []

/-- The results key used when "name" or "stage_id" is missing or falsy:
f-string custom_\x7bstage_name or 'unnamed'\x7d. -/
def customKeyFalsy (entry : ConfigData) : String :=
  "custom_" ++
    (match entry.lookup "name" with
     | some v => if jtruthy v then pyStr v else "unnamed"
     | none => "unnamed")

/-- One iteration of the validate_custom_stages loop: the (key, outcome)
pair it records for one entry. -/
def processCustomStage (env : Env) (entry : ConfigData) :
    Except PyErr (String × ValidationResult) :=
  if !(truthyO (entry.lookup "name")) || !(truthyO (entry.lookup "stage_id")) then
    .ok (customKeyFalsy entry, .INVALID_SCHEMA)
  else
    let nameStr := match entry.lookup "name" with
      | some v => pyStr v
      | none => "None"
    match fsLookup env (env.root ++ "/gov." ++ nameStr ++ ".stage.riftrc.custom") with
    | some _ =>
      (match validateGovernanceFile env
          (env.root ++ "/gov." ++ nameStr ++ ".stage.riftrc.custom") with
       | .error e => .error e
       | .ok (r, _) => .ok ("custom_" ++ nameStr, r))
    | none =>
      if truthyO (entry.lookup "activated") then
        .ok ("custom_" ++ nameStr, .MISSING_GOVERNANCE)
      else .ok ("custom_" ++ nameStr, .VALID)

/-- dict[key] = value with Python dict semantics: overwrite in place if
present, else append. -/
def dictInsert (m : List (String × ValidationResult)) (k : String)
    (v : ValidationResult) : List (String × ValidationResult) :=
  match m with
  | [] => [(k, v)]
  | (k', v') :: rest =>
    if k' == k then (k, v) :: rest else (k', v') :: dictInsert rest k v

/-- The fold of validate_custom_stages over its entries. -/
def customStagesLoop (env : Env) :
    List ConfigData → List (String × ValidationResult) →
    Except PyErr (List (String × ValidationResult))
  | [], acc => .ok acc
  | e :: es, acc =>
    match processCustomStage env e with
    | .error err => .error err
    | .ok (k, v) => customStagesLoop env es (dictInsert acc k v)

/-- validate_custom_stages. -/
def validateCustomStages (env : Env) (entries : List ConfigData) :
    Except PyErr (List (String × ValidationResult)) :=
  customStagesLoop env entries []

/-- main_config.get("custom_stages", []) as a list of dict entries; a
non-list value, or a non-dict element, makes the iteration in
validate_custom_stages raise. -/
def getCustomStagesList (data : ConfigData) : Except PyErr (List ConfigData) :=
  match data.lookup "custom_stages" with
  | none => .ok []
  | some (.arr xs) =>
    xs.mapM (fun v =>
      match v with
      | .obj kvs => Except.ok kvs
      | _ => Except.error PyErr.attributeError)
  | some _ => .error .typeError

/-- _determine_overall_status: first matching tier over all collected
outcomes. -/
def determineOverallStatus
    (pr : List (Nat × List (String × ValidationResult)))
    (cus : List (String × ValidationResult)) : String :=
  let allRes := pr.flatMap (fun p => p.2.map Prod.snd) ++ cus.map Prod.snd
  if allRes.contains .SEMVERX_VIOLATION then "CRITICAL_FAILURE"
  else if allRes.contains .EXPIRED then "EXPIRED_GOVERNANCE"
  else if allRes.contains .MISSING_GOVERNANCE then "MISSING_GOVERNANCE"
  else if allRes.contains .INVALID_SCHEMA then "SCHEMA_VIOLATIONS"
  else "COMPLIANT"

/-- The report assembled by generate_governance_report (the fields the
claims are about). -/
structure Report where
  pipeline : List (Nat × List (String × ValidationResult))
  custom : List (String × ValidationResult)
  overall_status : String

/-- generate_governance_report: runs the full pipeline (whose RuntimeError,
if any, propagates), then custom-stage validation, then the status. -/
def generateGovernanceReport (env : Env) : Except PyErr Report :=
  match validateCompletePipeline env with
  | .error e => .error e
  | .ok pr =>
    match
      (match fsLookup env (env.root ++ "/.riftrc") with
       | none => .ok []
       | some (.error _) => .error .jsonDecodeError
       | some (.ok data) =>
         match getCustomStagesList data with
         | .error e => .error e
         | .ok entries => validateCustomStages env entries :
          Except PyErr (List (String × ValidationResult))) with
    | .error e => .error e
    | .ok cus =>
      .ok { pipeline := pr, custom := cus,
            overall_status := determineOverallStatus pr cus }

/-! The RIFT-Bridge TreeResolver (bootstrap.py).  Only the fields of
ScriptMetadata the resolver touches are modelled; `Registry` is the
TreeResolver.scripts dict. -/

/-- ScriptMetadata as used by the resolver: name and declared
dependencies (the remaining metadata fields never influence resolution). -/
structure Script where
  name : String
  depends_on : List String
deriving DecidableEq

/-- TreeResolver.scripts: script name to metadata. -/
abbrev Registry := List (String × Script)

/-- The mutable state of resolve_execution_order's dfs closure:
temp_visited (as a stack, newest first), visited, and execution_order. -/
structure DfsSt where
  temp : List String
  visited : List String
  order : List Script
deriving DecidableEq

/-- Resolution errors: the cycle ValueError the source raises, and
exhaustion of the recursion-depth fuel (an artifact of the embedding;
the lemmas below show it is never hit with the fuel resolve passes). -/
inductive RErr where
  | cycle (name : String)
  | outOfFuel
deriving DecidableEq

/-- The dependencies dfs iterates for a name: the declared depends_on when
the name is in the registry, nothing otherwise. -/
def depsOf (reg : Registry) (name : String) : List String :=
  match reg.lookup name with
  | some sc => sc.depends_on
  | none => []

/-- What dfs appends to execution_order for a name: the metadata when the
name is in the registry, nothing otherwise (undeclared names are silently
dropped). -/
def appendOf (reg : Registry) (name : String) : List Script :=
  match reg.lookup name with
  | some sc => [sc]
  | none => []

/-- Sequencing of dfs over a dependency list, stopping at the first
raised error. -/
def dfsSeq (f : String → DfsSt → Except RErr DfsSt) :
    List String → DfsSt → Except RErr DfsSt
  | [], st => .ok st
  | d :: ds, st =>
    match f d st with
    | .error e => .error e
    | .ok st' => dfsSeq f ds st'

/-- The dfs closure of resolve_execution_order, with explicit recursion
fuel: revisiting an in-progress name raises the cycle ValueError; a done
name returns; otherwise the name is marked in-progress, its declared
dependencies are visited first, and the name is then marked done and
appended to the order (when declared). -/
def dfs (reg : Registry) : Nat → String → DfsSt → Except RErr DfsSt
  | 0, _, _ => .error .outOfFuel
  | fuel + 1, name, st =>
    if name ∈ st.temp then .error (.cycle name)
    else if name ∈ st.visited then .ok st
    else
      match dfsSeq (dfs reg fuel) (depsOf reg name)
          { st with temp := name :: st.temp } with
      | .error e => .error e
      | .ok st' =>
        .ok { temp := st'.temp.erase name,
              visited := st'.visited.insert name,
              order := st'.order ++ appendOf reg name }

/-- Every name the dfs can ever touch starting from the target: the
target, the registry keys, and every declared dependency name. -/
def allNamesFor (reg : Registry) (target : String) : List String :=
  (target :: (reg.map Prod.fst ++ (reg.map Prod.snd).flatMap Script.depends_on)).dedup

/-- resolve_execution_order: run dfs from the target on empty state.  The
fuel bounds the recursion depth; one unit is spent per nested in-progress
name, so allNamesFor's length plus one can never be exhausted (proved
below). -/
def resolveExecutionOrder (reg : Registry) (target : String) :
    Except RErr (List Script) :=
  match dfs reg ((allNamesFor reg target).length + 1) target
      { temp := [], visited := [], order := [] } with
  | .error e => .error e
  | .ok st => .ok st.order

/-- Registry well-formedness: each entry's metadata carries the key as its
name (always true of TreeResolver._parse_configuration's output). -/
def WFreg (reg : Registry) : Prop := ∀ p ∈ reg, (p.2 : Script).name = p.1

/-- Acyclicity of the declared dependency graph, as the existence of a
topological rank: every declared dependency has strictly smaller rank
than its dependent. -/
def Acyclic (reg : Registry) : Prop :=
  ∃ rank : String → Nat, ∀ p ∈ reg, ∀ d ∈ (p.2 : Script).depends_on,
    rank d < rank p.1

/-- The names of an execution order. -/
def ordNames (l : List Script) : List String := l.map Script.name

/-- Every dependency of a node that is itself declared in the registry
appears in the order strictly before the node. -/
def depsRespected (reg : Registry) (order : List Script) : Prop :=
  ∀ l1 sc l2, order = l1 ++ sc :: l2 →
    ∀ d ∈ (sc : Script).depends_on, (reg.lookup d).isSome → d ∈ ordNames l1

/-! Resolver lemmas. -/

theorem dfs_zero (reg : Registry) (n : String) (st : DfsSt) :
    dfs reg 0 n st = .error .outOfFuel := rfl

theorem dfs_succ (reg : Registry) (fuel : Nat) (name : String) (st : DfsSt) :
    dfs reg (fuel + 1) name st =
      (if name ∈ st.temp then .error (.cycle name)
      else if name ∈ st.visited then .ok st
      else
        match dfsSeq (dfs reg fuel) (depsOf reg name)
            { st with temp := name :: st.temp } with
        | .error e => .error e
        | .ok st' =>
          .ok { temp := st'.temp.erase name,
                visited := st'.visited.insert name,
                order := st'.order ++ appendOf reg name }) := rfl

theorem dfsSeq_nil (f : String → DfsSt → Except RErr DfsSt) (st : DfsSt) :
    dfsSeq f [] st = .ok st := rfl

theorem dfsSeq_cons (f : String → DfsSt → Except RErr DfsSt) (d : String)
    (ds : List String) (st : DfsSt) :
    dfsSeq f (d :: ds) st =
      (match f d st with
       | .error e => .error e
       | .ok st' => dfsSeq f ds st') := rfl

theorem lookup_mem {α : Type} {l : List (String × α)} {a : String} {b : α}
    (h : l.lookup a = some b) : (a, b) ∈ l := by
  induction l with
  | nil => simp [List.lookup] at h
  | cons p t ih =>
    obtain ⟨k, v⟩ := p
    rw [List.lookup] at h
    cases hbeq : a == k with
    | true =>
      rw [hbeq] at h
      have hk : a = k := by simpa using hbeq
      have hv : b = v := by simpa using h.symm
      subst hk; subst hv
      exact List.mem_cons_self _ _
    | false =>
      rw [hbeq] at h
      exact List.mem_cons_of_mem _ (ih h)

theorem target_mem_allNames (reg : Registry) (target : String) :
    target ∈ allNamesFor reg target := by
  simp [allNamesFor, List.mem_dedup]

theorem depsOf_mem_allNames (reg : Registry) (target n d : String)
    (hd : d ∈ depsOf reg n) : d ∈ allNamesFor reg target := by
  unfold depsOf at hd
  cases hlook : reg.lookup n with
  | none => rw [hlook] at hd; simp at hd
  | some sc =>
    rw [hlook] at hd
    have hmem : (n, sc) ∈ reg := lookup_mem hlook
    simp only [allNamesFor, List.mem_dedup, List.mem_cons, List.mem_append]
    refine Or.inr (Or.inr ?_)
    rw [List.mem_flatMap]
    exact ⟨sc, List.mem_map.mpr ⟨(n, sc), hmem, rfl⟩, hd⟩

/-- Frame property of one dfs call: temp_visited is restored, and visited
only grows. -/
def StFrame (st st' : DfsSt) : Prop :=
  st'.temp = st.temp ∧ (∀ x ∈ st.visited, x ∈ st'.visited)

theorem dfsSeq_frame (f : String → DfsSt → Except RErr DfsSt)
    (hf : ∀ d st st', f d st = .ok st' → StFrame st st') :
    ∀ (ds : List String) (st st' : DfsSt),
      dfsSeq f ds st = .ok st' → StFrame st st' := by
  intro ds
  induction ds with
  | nil =>
    intro st st' h
    rw [dfsSeq_nil] at h
    injection h with h
    subst h
    exact ⟨rfl, fun x hx => hx⟩
  | cons d ds ih =>
    intro st st' h
    rw [dfsSeq_cons] at h
    cases hfd : f d st with
    | error e => rw [hfd] at h; exact absurd h (by simp)
    | ok stm =>
      rw [hfd] at h
      obtain ⟨t1, v1⟩ := hf d st stm hfd
      obtain ⟨t2, v2⟩ := ih stm st' h
      exact ⟨t2.trans t1, fun x hx => v2 x (v1 x hx)⟩

theorem dfs_frame (reg : Registry) : ∀ (fuel : Nat) (name : String)
    (st st' : DfsSt), dfs reg fuel name st = .ok st' → StFrame st st' := by
  intro fuel
  induction fuel with
  | zero =>
    intro name st st' h
    rw [dfs_zero] at h
    exact absurd h (by simp)
  | succ fuel ih =>
    intro name st st' h
    rw [dfs_succ] at h
    by_cases h1 : name ∈ st.temp
    · rw [if_pos h1] at h
      exact absurd h (by simp)
    · by_cases h2 : name ∈ st.visited
      · rw [if_neg h1, if_pos h2] at h
        injection h with h
        subst h
        exact ⟨rfl, fun x hx => hx⟩
      · rw [if_neg h1, if_neg h2] at h
        cases hseq : dfsSeq (dfs reg fuel) (depsOf reg name)
            { st with temp := name :: st.temp } with
        | error e => rw [hseq] at h; exact absurd h (by simp)
        | ok stm =>
          rw [hseq] at h
          injection h with h
          obtain ⟨tEq, vMono⟩ := dfsSeq_frame (dfs reg fuel) ih _ _ _ hseq
          subst h
          constructor
          · show stm.temp.erase name = st.temp
            rw [tEq]
            exact List.erase_cons_head name st.temp
          · intro x hx
            show x ∈ stm.visited.insert name
            exact List.mem_insert_of_mem (vMono x hx)

theorem dfs_ok_visited (reg : Registry) (fuel : Nat) (name : String)
    (st st' : DfsSt) (h : dfs reg fuel name st = .ok st') :
    name ∈ st'.visited := by
  cases fuel with
  | zero => rw [dfs_zero] at h; exact absurd h (by simp)
  | succ fuel =>
    rw [dfs_succ] at h
    by_cases h1 : name ∈ st.temp
    · rw [if_pos h1] at h; exact absurd h (by simp)
    · by_cases h2 : name ∈ st.visited
      · rw [if_neg h1, if_pos h2] at h
        injection h with h
        subst h
        exact h2
      · rw [if_neg h1, if_neg h2] at h
        cases hseq : dfsSeq (dfs reg fuel) (depsOf reg name)
            { st with temp := name :: st.temp } with
        | error e => rw [hseq] at h; exact absurd h (by simp)
        | ok stm =>
          rw [hseq] at h
          injection h with h
          subst h
          exact List.mem_insert_self name stm.visited

theorem dfsSeq_all_visited (reg : Registry) (fuel : Nat) :
    ∀ (ds : List String) (st st' : DfsSt),
      dfsSeq (dfs reg fuel) ds st = .ok st' → ∀ d ∈ ds, d ∈ st'.visited := by
  intro ds
  induction ds with
  | nil => intro st st' _ d hd; simp at hd
  | cons d0 ds ih =>
    intro st st' h d hd
    rw [dfsSeq_cons] at h
    cases hfd : dfs reg fuel d0 st with
    | error e => rw [hfd] at h; exact absurd h (by simp)
    | ok stm =>
      rw [hfd] at h
      rcases List.mem_cons.mp hd with rfl | hd'
      · exact (dfsSeq_frame (dfs reg fuel) (dfs_frame reg fuel) ds stm st' h).2
          d (dfs_ok_visited reg fuel d st stm hfd)
      · exact ih stm st' h d hd'

theorem dfs_protect (reg : Registry) : ∀ (fuel : Nat) (name : String)
    (st st' : DfsSt), dfs reg fuel name st = .ok st' →
    ∀ x ∈ st.temp, x ∉ st.visited → x ∉ st'.visited := by
  intro fuel
  induction fuel with
  | zero =>
    intro name st st' h
    rw [dfs_zero] at h
    exact absurd h (by simp)
  | succ fuel ih =>
    have seqProt : ∀ (ds : List String) (st st' : DfsSt),
        dfsSeq (dfs reg fuel) ds st = .ok st' →
        ∀ x ∈ st.temp, x ∉ st.visited → x ∉ st'.visited := by
      intro ds
      induction ds with
      | nil =>
        intro st st' h x hx hnv
        rw [dfsSeq_nil] at h
        injection h with h
        subst h
        exact hnv
      | cons d ds ihds =>
        intro st st' h x hx hnv
        rw [dfsSeq_cons] at h
        cases hfd : dfs reg fuel d st with
        | error e => rw [hfd] at h; exact absurd h (by simp)
        | ok stm =>
          rw [hfd] at h
          have htmp : stm.temp = st.temp := (dfs_frame reg fuel d st stm hfd).1
          exact ihds stm st' h x (htmp ▸ hx) (ih d st stm hfd x hx hnv)
    intro name st st' h x hx hnv
    rw [dfs_succ] at h
    by_cases h1 : name ∈ st.temp
    · rw [if_pos h1] at h; exact absurd h (by simp)
    · by_cases h2 : name ∈ st.visited
      · rw [if_neg h1, if_pos h2] at h
        injection h with h
        subst h
        exact hnv
      · rw [if_neg h1, if_neg h2] at h
        cases hseq : dfsSeq (dfs reg fuel) (depsOf reg name)
            { st with temp := name :: st.temp } with
        | error e => rw [hseq] at h; exact absurd h (by simp)
        | ok stm =>
          rw [hseq] at h
          injection h with h
          subst h
          have hxname : x ≠ name := fun hEq => h1 (hEq ▸ hx)
          have hxm : x ∉ stm.visited :=
            seqProt _ _ _ hseq x (List.mem_cons_of_mem _ hx) hnv
          show x ∉ stm.visited.insert name
          rw [List.mem_insert_iff]
          rintro (rfl | hc)
          · exact hxname rfl
          · exact hxm hc

/-- The dfs state invariant: order names are distinct, every order entry
is the registry's metadata for its name, a declared name is visited
exactly when it is in the order, and every declared dependency of an
order entry precedes it. -/
def StInv (reg : Registry) (st : DfsSt) : Prop :=
  (ordNames st.order).Nodup ∧
  (∀ sc ∈ st.order, reg.lookup (sc : Script).name = some sc) ∧
  (∀ n, (reg.lookup n).isSome → (n ∈ st.visited ↔ n ∈ ordNames st.order)) ∧
  depsRespected reg st.order

theorem depsRespected_append {reg : Registry} {order : List Script}
    {sc : Script} (h1 : depsRespected reg order)
    (h2 : ∀ d ∈ (sc : Script).depends_on, (reg.lookup d).isSome →
      d ∈ ordNames order) :
    depsRespected reg (order ++ [sc]) := by
  intro l1 x l2 heq d hd hdecl
  rcases List.eq_nil_or_concat l2 with h | ⟨l2', b, rfl⟩
  · subst h
    obtain ⟨hord, hsc⟩ := List.append_inj' heq (by simp)
    have hx : sc = x := by simpa using hsc
    subst hord
    subst hx
    exact h2 d hd hdecl
  · have heq2 : order ++ [sc] = (l1 ++ x :: l2') ++ [b] := by
      rw [heq]; simp
    obtain ⟨hord, _⟩ := List.append_inj' heq2 (by simp)
    exact h1 l1 x l2' hord d hd hdecl

theorem dfsSeq_protect (reg : Registry) (fuel : Nat) :
    ∀ (ds : List String) (st st' : DfsSt),
      dfsSeq (dfs reg fuel) ds st = .ok st' →
      ∀ x ∈ st.temp, x ∉ st.visited → x ∉ st'.visited := by
  intro ds
  induction ds with
  | nil =>
    intro st st' h x _ hnv
    rw [dfsSeq_nil] at h
    injection h with h
    subst h
    exact hnv
  | cons d ds ih =>
    intro st st' h x hx hnv
    rw [dfsSeq_cons] at h
    cases hfd : dfs reg fuel d st with
    | error e => rw [hfd] at h; exact absurd h (by simp)
    | ok stm =>
      rw [hfd] at h
      have htmp : stm.temp = st.temp := (dfs_frame reg fuel d st stm hfd).1
      exact ih stm st' h x (htmp ▸ hx) (dfs_protect reg fuel d st stm hfd x hx hnv)

theorem dfs_StInv (reg : Registry) (hW : WFreg reg) :
    ∀ (fuel : Nat) (name : String) (st st' : DfsSt),
      dfs reg fuel name st = .ok st' → StInv reg st → StInv reg st' := by
  intro fuel
  induction fuel with
  | zero =>
    intro name st st' h
    rw [dfs_zero] at h
    exact absurd h (by simp)
  | succ fuel ih =>
    have seqInv : ∀ (ds : List String) (st st' : DfsSt),
        dfsSeq (dfs reg fuel) ds st = .ok st' → StInv reg st → StInv reg st' := by
      intro ds
      induction ds with
      | nil =>
        intro st st' h hInv
        rw [dfsSeq_nil] at h
        injection h with h
        subst h
        exact hInv
      | cons d ds ihds =>
        intro st st' h hInv
        rw [dfsSeq_cons] at h
        cases hfd : dfs reg fuel d st with
        | error e => rw [hfd] at h; exact absurd h (by simp)
        | ok stm =>
          rw [hfd] at h
          exact ihds stm st' h (ih d st stm hfd hInv)
    intro name st st' h hInv
    rw [dfs_succ] at h
    by_cases h1 : name ∈ st.temp
    · rw [if_pos h1] at h; exact absurd h (by simp)
    · by_cases h2 : name ∈ st.visited
      · rw [if_neg h1, if_pos h2] at h
        injection h with h
        subst h
        exact hInv
      · rw [if_neg h1, if_neg h2] at h
        cases hseq : dfsSeq (dfs reg fuel) (depsOf reg name)
            { st with temp := name :: st.temp } with
        | error e => rw [hseq] at h; exact absurd h (by simp)
        | ok stm =>
          rw [hseq] at h
          injection h with h
          subst h
          obtain ⟨hNd, hLook, hVisOrd, hResp⟩ := seqInv _ _ _ hseq hInv
          have hnameVis : name ∉ stm.visited :=
            dfsSeq_protect reg fuel _ _ _ hseq name (List.mem_cons_self _ _) h2
          have hdeps : ∀ d ∈ depsOf reg name, d ∈ stm.visited :=
            dfsSeq_all_visited reg fuel _ _ _ hseq
          cases hlook : reg.lookup name with
          | none =>
            have happ : appendOf reg name = [] := by simp [appendOf, hlook]
            refine ⟨?_, ?_, ?_, ?_⟩
            · show (ordNames (stm.order ++ appendOf reg name)).Nodup
              rw [happ, List.append_nil]
              exact hNd
            · intro sc hsc
              have hsc' : sc ∈ stm.order ++ appendOf reg name := hsc
              rw [happ, List.append_nil] at hsc'
              exact hLook sc hsc'
            · intro n hn
              show n ∈ stm.visited.insert name ↔
                n ∈ ordNames (stm.order ++ appendOf reg name)
              rw [happ, List.append_nil, List.mem_insert_iff]
              have hne : n ≠ name := by
                rintro rfl
                rw [hlook] at hn
                simp at hn
              constructor
              · rintro (rfl | hv)
                · exact absurd rfl hne
                · exact (hVisOrd n hn).mp hv
              · intro ho
                exact Or.inr ((hVisOrd n hn).mpr ho)
            · show depsRespected reg (stm.order ++ appendOf reg name)
              rw [happ, List.append_nil]
              exact hResp
          | some sc =>
            have hscname : sc.name = name := hW (name, sc) (lookup_mem hlook)
            have happ : appendOf reg name = [sc] := by simp [appendOf, hlook]
            have hdecl : (reg.lookup name).isSome := by simp [hlook]
            have hnameOrd : name ∉ ordNames stm.order := fun hmem =>
              hnameVis ((hVisOrd name hdecl).mpr hmem)
            have hmapEq : ordNames (stm.order ++ [sc]) =
                ordNames stm.order ++ [name] := by
              simp [ordNames, hscname]
            refine ⟨?_, ?_, ?_, ?_⟩
            · show (ordNames (stm.order ++ appendOf reg name)).Nodup
              rw [happ, hmapEq]
              simp only [List.nodup_append, List.nodup_cons,
                List.not_mem_nil, not_false_iff, List.nodup_nil, true_and,
                and_true, List.disjoint_singleton]
              exact ⟨hNd, hnameOrd⟩
            · intro x hx
              have hx0 : x ∈ stm.order ++ appendOf reg name := hx
              rw [happ] at hx0
              rcases List.mem_append.mp hx0 with hx' | hx'
              · exact hLook x hx'
              · have : x = sc := by simpa using hx'
                subst this
                rw [hscname]
                exact hlook
            · intro n hn
              show n ∈ stm.visited.insert name ↔
                n ∈ ordNames (stm.order ++ appendOf reg name)
              rw [happ, hmapEq, List.mem_insert_iff, List.mem_append,
                List.mem_singleton]
              constructor
              · rintro (rfl | hv)
                · exact Or.inr rfl
                · exact Or.inl ((hVisOrd n hn).mp hv)
              · rintro (ho | rfl)
                · exact Or.inr ((hVisOrd n hn).mpr ho)
                · exact Or.inl rfl
            · show depsRespected reg (stm.order ++ appendOf reg name)
              rw [happ]
              refine depsRespected_append hResp ?_
              intro d hd hdd
              have hdin : d ∈ depsOf reg name := by
                rw [depsOf, hlook]
                exact hd
              exact (hVisOrd d hdd).mp (hdeps d hdin)

theorem sdiff_cons_card_lt {A T : Finset String} {name : String}
    (hA : name ∈ A) (hT : name ∉ T) :
    (A \ insert name T).card < (A \ T).card := by
  apply Finset.card_lt_card
  constructor
  · intro x hx
    rw [Finset.mem_sdiff] at hx ⊢
    exact ⟨hx.1, fun hc => hx.2 (Finset.mem_insert_of_mem hc)⟩
  · intro hsub
    have hmem : name ∈ A \ T := Finset.mem_sdiff.mpr ⟨hA, hT⟩
    have := hsub hmem
    rw [Finset.mem_sdiff] at this
    exact this.2 (Finset.mem_insert_self _ _)

theorem dfs_no_fuel (reg : Registry) (target : String) :
    ∀ (fuel : Nat) (name : String) (st : DfsSt),
      name ∈ allNamesFor reg target →
      (∀ x ∈ st.temp, x ∈ allNamesFor reg target) →
      ((allNamesFor reg target).toFinset \ st.temp.toFinset).card < fuel →
      dfs reg fuel name st ≠ .error .outOfFuel := by
  intro fuel
  induction fuel with
  | zero =>
    intro name st _ _ hcard
    exact absurd hcard (by omega)
  | succ fuel ih =>
    intro name st hn htemp hcard
    rw [dfs_succ]
    by_cases h1 : name ∈ st.temp
    · rw [if_pos h1]; simp
    · by_cases h2 : name ∈ st.visited
      · rw [if_neg h1, if_pos h2]; simp
      · rw [if_neg h1, if_neg h2]
        have hcard1 : ((allNamesFor reg target).toFinset \
            (name :: st.temp).toFinset).card < fuel := by
          have hlt : ((allNamesFor reg target).toFinset \
              (name :: st.temp).toFinset).card <
              ((allNamesFor reg target).toFinset \ st.temp.toFinset).card := by
            rw [List.toFinset_cons]
            exact sdiff_cons_card_lt (List.mem_toFinset.mpr hn)
              (fun hc => h1 (List.mem_toFinset.mp hc))
          omega
        have htemp1 : ∀ x ∈ name :: st.temp, x ∈ allNamesFor reg target := by
          intro x hx
          rcases List.mem_cons.mp hx with rfl | hx'
          · exact hn
          · exact htemp x hx'
        have hseqNF : ∀ (ds : List String) (st₁ : DfsSt),
            (∀ d ∈ ds, d ∈ allNamesFor reg target) →
            st₁.temp = name :: st.temp →
            dfsSeq (dfs reg fuel) ds st₁ ≠ .error .outOfFuel := by
          intro ds
          induction ds with
          | nil => intro st₁ _ _; rw [dfsSeq_nil]; simp
          | cons d ds ihds =>
            intro st₁ hds htmp
            rw [dfsSeq_cons]
            cases hfd : dfs reg fuel d st₁ with
            | error e =>
              have : e ≠ .outOfFuel := by
                intro hE
                subst hE
                exact ih d st₁ (hds d (List.mem_cons_self _ _))
                  (htmp ▸ htemp1) (htmp ▸ hcard1) hfd
              simpa using this
            | ok stm =>
              have htmp' : stm.temp = name :: st.temp :=
                ((dfs_frame reg fuel d st₁ stm hfd).1).trans htmp
              exact ihds stm (fun x hx => hds x (List.mem_cons_of_mem _ hx)) htmp'
        cases hseq : dfsSeq (dfs reg fuel) (depsOf reg name)
            { st with temp := name :: st.temp } with
        | error e =>
          have : e ≠ .outOfFuel := by
            intro hE
            subst hE
            exact hseqNF (depsOf reg name) _
              (fun d hd => depsOf_mem_allNames reg target name d hd) rfl hseq
          simpa using this
        | ok stm => simp

theorem dfs_no_cycle (reg : Registry) (rank : String → Nat)
    (hrank : ∀ p ∈ reg, ∀ d ∈ (p.2 : Script).depends_on, rank d < rank p.1) :
    ∀ (fuel : Nat) (name : String) (st : DfsSt),
      (∀ x ∈ st.temp, rank name < rank x) →
      ∀ e, dfs reg fuel name st = .error e → e = .outOfFuel := by
  intro fuel
  induction fuel with
  | zero =>
    intro name st _ e h
    rw [dfs_zero] at h
    injection h with h
    exact h.symm
  | succ fuel ih =>
    intro name st hpre e h
    rw [dfs_succ] at h
    by_cases h1 : name ∈ st.temp
    · exact absurd (hpre name h1) (lt_irrefl _)
    · by_cases h2 : name ∈ st.visited
      · rw [if_neg h1, if_pos h2] at h
        exact absurd h (by simp)
      · rw [if_neg h1, if_neg h2] at h
        have hdepsRank : ∀ d ∈ depsOf reg name, rank d < rank name := by
          intro d hd
          unfold depsOf at hd
          cases hlook : reg.lookup name with
          | none => rw [hlook] at hd; simp at hd
          | some sc =>
            rw [hlook] at hd
            exact hrank (name, sc) (lookup_mem hlook) d hd
        have hseqNC : ∀ (ds : List String) (st₁ : DfsSt),
            (∀ d ∈ ds, rank d < rank name) →
            st₁.temp = name :: st.temp →
            ∀ e, dfsSeq (dfs reg fuel) ds st₁ = .error e → e = .outOfFuel := by
          intro ds
          induction ds with
          | nil =>
            intro st₁ _ _ e h'
            rw [dfsSeq_nil] at h'
            exact absurd h' (by simp)
          | cons d ds ihds =>
            intro st₁ hds htmp e h'
            rw [dfsSeq_cons] at h'
            cases hfd : dfs reg fuel d st₁ with
            | error e' =>
              rw [hfd] at h'
              injection h' with h'
              rw [← h']
              refine ih d st₁ ?_ e' hfd
              intro x hx
              rw [htmp] at hx
              rcases List.mem_cons.mp hx with rfl | hx'
              · exact hds d (List.mem_cons_self _ _)
              · exact lt_trans (hds d (List.mem_cons_self _ _)) (hpre x hx')
            | ok stm =>
              rw [hfd] at h'
              have htmp' : stm.temp = name :: st.temp :=
                ((dfs_frame reg fuel d st₁ stm hfd).1).trans htmp
              exact ihds stm (fun x hx => hds x (List.mem_cons_of_mem _ hx))
                htmp' e h'
        cases hseq : dfsSeq (dfs reg fuel) (depsOf reg name)
            { st with temp := name :: st.temp } with
        | error e' =>
          rw [hseq] at h
          injection h with h
          subst h
          exact hseqNC (depsOf reg name) _ hdepsRank rfl e' hseq
        | ok stm =>
          rw [hseq] at h
          exact absurd h (by simp)

theorem resolve_total (reg : Registry) (target : String) (hA : Acyclic reg) :
    ∃ st : DfsSt,
      dfs reg ((allNamesFor reg target).length + 1) target
        { temp := [], visited := [], order := [] } = .ok st ∧
      resolveExecutionOrder reg target = .ok st.order := by
  cases hr : dfs reg ((allNamesFor reg target).length + 1) target
      { temp := [], visited := [], order := [] } with
  | ok st =>
    refine ⟨st, rfl, ?_⟩
    rw [resolveExecutionOrder, hr]
  | error e =>
    obtain ⟨rank, hrank⟩ := hA
    have he : e = .outOfFuel :=
      dfs_no_cycle reg rank hrank _ target _ (by simp) e hr
    subst he
    have hnf := dfs_no_fuel reg target ((allNamesFor reg target).length + 1)
      target { temp := [], visited := [], order := [] }
      (target_mem_allNames reg target) (by simp) ?_ hr
    · exact absurd hnf (by simp)
    · show ((allNamesFor reg target).toFinset \ ([] : List String).toFinset).card <
        (allNamesFor reg target).length + 1
      rw [List.toFinset_nil, Finset.sdiff_empty]
      exact Nat.lt_succ_of_le (allNamesFor reg target).toFinset_card_le

theorem StInv_init (reg : Registry) :
    StInv reg { temp := [], visited := [], order := [] } := by
  refine ⟨List.nodup_nil, ?_, ?_, ?_⟩
  · intro sc hsc
    simp at hsc
  · intro n _
    simp [ordNames]
  · intro l1 sc l2 heq
    exact absurd heq (by simp)

/-- The A→B graph with independent C of the spec's resolver example. -/
def scriptA : Script := { name := "A", depends_on := ["B"] }

/-- Script B of the example, with no dependencies. -/
def scriptB : Script := { name := "B", depends_on := [] }

/-- Independent script C of the example. -/
def scriptC : Script := { name := "C", depends_on := [] }

/-- Registry of the example: A depends on B; C is independent. -/
def regABC : Registry := [("A", scriptA), ("B", scriptB), ("C", scriptC)]

/-- Registry with the 3-cycle A→B→C→A. -/
def regCyc : Registry :=
  [("A", { name := "A", depends_on := ["B"] }),
   ("B", { name := "B", depends_on := ["C"] }),
   ("C", { name := "C", depends_on := ["A"] })]

/-- Registry in which A depends on the undeclared name ghost. -/
def regGhost : Registry := [("A", { name := "A", depends_on := ["ghost"] })]

/-- C6: for every well-formed acyclic registry (acyclicity as the
existence of a topological rank on names) and every target,
resolve_execution_order succeeds and returns a list in which each node
appears at most once and every dependency of a node that is itself a
declared registry node appears strictly before the node (dependencies
naming undeclared nodes are the subject of C3); the order is the
post-order of the depth-first traversal in declared dependency order by
construction of `dfs`, and it is deterministic because
resolve_execution_order is a pure function of the registry and target.
Concretely, for the graph A→B with independent C, resolve(A) = [B, A]
and resolve(C) = [C]. -/
theorem C6_resolver_postorder :
    (∀ (reg : Registry) (target : String), WFreg reg → Acyclic reg →
      ∃ order, resolveExecutionOrder reg target = .ok order ∧
        (ordNames order).Nodup ∧ depsRespected reg order) ∧
    resolveExecutionOrder regABC "A" = .ok [scriptB, scriptA] ∧
    resolveExecutionOrder regABC "C" = .ok [scriptC] := by
  refine ⟨?_, rfl, rfl⟩
  intro reg target hW hA
  obtain ⟨st, hdfs, hres⟩ := resolve_total reg target hA
  have hInv := dfs_StInv reg hW _ target _ st hdfs (StInv_init reg)
  exact ⟨st.order, hres, hInv.1, hInv.2.2.2⟩

/-- Witness for C6 at the concrete A→B, C registry, with the explicit
topological rank A↦1, B↦0, C↦0. -/
theorem C6_witness :
    ∃ order, resolveExecutionOrder regABC "A" = .ok order ∧
      (ordNames order).Nodup ∧ depsRespected regABC order :=
  C6_resolver_postorder.1 regABC "A" (by unfold WFreg; decide)
    ⟨fun n => if n = "A" then 1 else 0, by decide⟩

/-- Reachability along declared dependency edges. -/
inductive Reaches (reg : Registry) : String → String → Prop where
  | refl (n : String) : Reaches reg n n
  | step {n d m : String} (hd : d ∈ depsOf reg n) (h : Reaches reg d m) :
      Reaches reg n m

/-- The visited set is closed under declared dependencies. -/
def VisClosed (reg : Registry) (st : DfsSt) : Prop :=
  ∀ n ∈ st.visited, ∀ d ∈ depsOf reg n, d ∈ st.visited

theorem dfs_visClosed (reg : Registry) :
    ∀ (fuel : Nat) (name : String) (st st' : DfsSt),
      dfs reg fuel name st = .ok st' → VisClosed reg st → VisClosed reg st' := by
  intro fuel
  induction fuel with
  | zero =>
    intro name st st' h
    rw [dfs_zero] at h
    exact absurd h (by simp)
  | succ fuel ih =>
    have seqC : ∀ (ds : List String) (st st' : DfsSt),
        dfsSeq (dfs reg fuel) ds st = .ok st' →
        VisClosed reg st → VisClosed reg st' := by
      intro ds
      induction ds with
      | nil =>
        intro st st' h hc
        rw [dfsSeq_nil] at h
        injection h with h
        subst h
        exact hc
      | cons d ds ihds =>
        intro st st' h hc
        rw [dfsSeq_cons] at h
        cases hfd : dfs reg fuel d st with
        | error e => rw [hfd] at h; exact absurd h (by simp)
        | ok stm => rw [hfd] at h; exact ihds stm st' h (ih d st stm hfd hc)
    intro name st st' h hc
    rw [dfs_succ] at h
    by_cases h1 : name ∈ st.temp
    · rw [if_pos h1] at h; exact absurd h (by simp)
    · by_cases h2 : name ∈ st.visited
      · rw [if_neg h1, if_pos h2] at h
        injection h with h
        subst h
        exact hc
      · rw [if_neg h1, if_neg h2] at h
        cases hseq : dfsSeq (dfs reg fuel) (depsOf reg name)
            { st with temp := name :: st.temp } with
        | error e => rw [hseq] at h; exact absurd h (by simp)
        | ok stm =>
          rw [hseq] at h
          injection h with h
          subst h
          have hcm : VisClosed reg stm := seqC _ _ _ hseq hc
          have hdeps := dfsSeq_all_visited reg fuel _ _ _ hseq
          intro n hn d hd
          rcases List.mem_insert_iff.mp hn with rfl | hn'
          · exact List.mem_insert_of_mem (hdeps d hd)
          · exact List.mem_insert_of_mem (hcm n hn' d hd)

theorem reaches_visited {reg : Registry} {st : DfsSt}
    (hc : VisClosed reg st) :
    ∀ {a b : String}, Reaches reg a b → a ∈ st.visited → b ∈ st.visited := by
  intro a b h
  induction h with
  | refl n => exact fun hm => hm
  | step hd _ ih => intro ha; exact ih (hc _ ha _ hd)

/-- Index of the first occurrence of a name in a list of names. -/
def posIn : List String → String → Nat
  | [], _ => 0
  | a :: rest, n => if a = n then 0 else posIn rest n + 1

theorem posIn_append_mem : ∀ (A B : List String) (d : String), d ∈ A →
    posIn (A ++ B) d = posIn A d ∧ posIn A d < A.length := by
  intro A
  induction A with
  | nil => intro B d h; simp at h
  | cons a rest ih =>
    intro B d h
    by_cases hd : a = d
    · constructor <;> simp [posIn, hd]
    · have h' : d ∈ rest := by
        rcases List.mem_cons.mp h with rfl | h'
        · exact absurd rfl hd
        · exact h'
      obtain ⟨e1, e2⟩ := ih B d h'
      constructor
      · simp [posIn, hd, e1]
      · simp only [posIn, if_neg hd, List.length_cons]
        omega

theorem posIn_append_not_mem : ∀ (A B : List String) (n : String), n ∉ A →
    posIn (A ++ B) n = A.length + posIn B n := by
  intro A
  induction A with
  | nil => intro B n _; simp
  | cons a rest ih =>
    intro B n h
    have ha : a ≠ n := fun hEq => h (hEq ▸ List.mem_cons_self _ _)
    have h' : n ∉ rest := fun hm => h (List.mem_cons_of_mem _ hm)
    have e : posIn ((a :: rest) ++ B) n = posIn (rest ++ B) n + 1 := by
      simp [posIn, ha]
    rw [e, ih B n h']
    simp only [List.length_cons]
    omega

theorem pos_dep_lt {reg : Registry} {order : List Script}
    (hNd : (ordNames order).Nodup)
    (hLook : ∀ sc ∈ order, reg.lookup (sc : Script).name = some sc)
    (hResp : depsRespected reg order)
    {n d : String} (hn : n ∈ ordNames order) (hd : d ∈ depsOf reg n)
    (hdd : (reg.lookup d).isSome) :
    posIn (ordNames order) d < posIn (ordNames order) n := by
  obtain ⟨sc, hsc, rfl⟩ := List.mem_map.mp hn
  obtain ⟨l1, l2, rfl⟩ := List.append_of_mem hsc
  have hdeps_eq : depsOf reg sc.name = sc.depends_on := by
    unfold depsOf
    rw [hLook sc (by simp)]
  rw [hdeps_eq] at hd
  have hd1 : d ∈ ordNames l1 := hResp l1 sc l2 rfl d hd hdd
  have hmapeq : ordNames (l1 ++ sc :: l2) =
      ordNames l1 ++ sc.name :: ordNames l2 := by simp [ordNames]
  have hnotin : sc.name ∉ ordNames l1 := by
    rw [hmapeq] at hNd
    intro hmem
    exact (List.disjoint_of_nodup_append hNd) hmem (by simp)
  rw [hmapeq]
  obtain ⟨e1, e2⟩ := posIn_append_mem (ordNames l1) (sc.name :: ordNames l2)
    d hd1
  have e3 := posIn_append_not_mem (ordNames l1) (sc.name :: ordNames l2)
    sc.name hnotin
  have e4 : posIn (sc.name :: ordNames l2) sc.name = 0 := by simp [posIn]
  rw [e1, e3, e4]
  omega

theorem reaches_pos_le {reg : Registry} {order : List Script} {st : DfsSt}
    (hNd : (ordNames order).Nodup)
    (hLook : ∀ sc ∈ order, reg.lookup (sc : Script).name = some sc)
    (hResp : depsRespected reg order)
    (hVisOrd : ∀ n, (reg.lookup n).isSome →
      (n ∈ st.visited ↔ n ∈ ordNames order))
    (hc : VisClosed reg st) :
    ∀ {a b : String}, Reaches reg a b → a ∈ st.visited →
      (reg.lookup b).isSome →
      posIn (ordNames order) b ≤ posIn (ordNames order) a := by
  intro a b h
  induction h with
  | refl n => intro _ _; exact le_refl _
  | @step n d m hd hreach ih =>
    intro ha hb
    have hndecl : (reg.lookup n).isSome := by
      unfold depsOf at hd
      cases hl : reg.lookup n with
      | none => rw [hl] at hd; simp at hd
      | some sc => simp [hl]
    have hddecl : (reg.lookup d).isSome := by
      cases hreach with
      | refl => exact hb
      | step hd2 _ =>
        unfold depsOf at hd2
        cases hl : reg.lookup d with
        | none => rw [hl] at hd2; simp at hd2
        | some sc => simp [hl]
    have hdvis := hc _ ha _ hd
    have h1 := ih hdvis hb
    have h2 := pos_dep_lt hNd hLook hResp ((hVisOrd n hndecl).mp ha) hd hddecl
    omega

theorem resolve_cyclic_errors : ∀ (reg : Registry) (target : String),
    WFreg reg →
    (∃ n, Reaches reg target n ∧ ∃ d ∈ depsOf reg n, Reaches reg d n) →
    ∃ c, resolveExecutionOrder reg target = .error (.cycle c) := by
  intro reg target hW hcyc
  obtain ⟨n, hreach, d, hd, hback⟩ := hcyc
  cases hr : dfs reg ((allNamesFor reg target).length + 1) target
      { temp := [], visited := [], order := [] } with
  | ok st =>
    exfalso
    obtain ⟨hNd, hLook, hVisOrd, hResp⟩ :=
      dfs_StInv reg hW _ target _ st hr (StInv_init reg)
    have hc : VisClosed reg st := dfs_visClosed reg _ target _ st hr
      (by intro x hx; simp at hx)
    have htv : target ∈ st.visited := dfs_ok_visited reg _ target _ st hr
    have hnv : n ∈ st.visited := reaches_visited hc hreach htv
    have hndecl : (reg.lookup n).isSome := by
      unfold depsOf at hd
      cases hl : reg.lookup n with
      | none => rw [hl] at hd; simp at hd
      | some sc => simp [hl]
    have hddecl : (reg.lookup d).isSome := by
      cases hback with
      | refl => exact hndecl
      | step hd2 _ =>
        unfold depsOf at hd2
        cases hl : reg.lookup d with
        | none => rw [hl] at hd2; simp at hd2
        | some sc => simp [hl]
    have hdvis : d ∈ st.visited := hc n hnv d hd
    have h1 := reaches_pos_le hNd hLook hResp hVisOrd hc hback hdvis hndecl
    have h2 := pos_dep_lt hNd hLook hResp ((hVisOrd n hndecl).mp hnv) hd
      hddecl
    omega
  | error e =>
    cases e with
    | cycle c => exact ⟨c, by rw [resolveExecutionOrder, hr]⟩
    | outOfFuel =>
      exfalso
      refine dfs_no_fuel reg target _ target _
        (target_mem_allNames reg target) (by intro x hx; simp at hx) ?_ hr
      rw [List.toFinset_nil, Finset.sdiff_empty]
      exact Nat.lt_succ_of_le (allNamesFor reg target).toFinset_card_le

/-- C7: revisiting an in-progress (temp_visited) node makes dfs raise the
cycle ValueError at once; for every well-formed registry with a
dependency cycle reachable from the target (a node n reachable from the
target with a declared dependency d that reaches back to n),
resolve_execution_order raises a cycle error and returns no order (the
error carries no order at all); and on the concrete cyclic graph
A→B→C→A, resolve(A) raises the cycle error for A. -/
theorem C7_cycle_error :
    (∀ (reg : Registry) (fuel : Nat) (name : String) (st : DfsSt),
        name ∈ st.temp → dfs reg (fuel + 1) name st = .error (.cycle name)) ∧
    (∀ (reg : Registry) (target : String), WFreg reg →
      (∃ n, Reaches reg target n ∧ ∃ d ∈ depsOf reg n, Reaches reg d n) →
      ∃ c, resolveExecutionOrder reg target = .error (.cycle c)) ∧
    resolveExecutionOrder regCyc "A" = .error (.cycle "A") := by
  refine ⟨?_, resolve_cyclic_errors, rfl⟩
  intro reg fuel name st h
  rw [dfs_succ, if_pos h]

/-- Witness for C7: one dfs step on a state whose in-progress stack
already holds A raises the cycle error for A. -/
theorem C7_witness :
    dfs regCyc (0 + 1) "A" { temp := ["A"], visited := [], order := [] } =
      .error (.cycle "A") :=
  C7_cycle_error.1 regCyc 0 "A" { temp := ["A"], visited := [], order := [] }
    (by simp)

/-- C3 claims a resolution error for a target whose transitive
dependencies name a node absent from the registry; the code instead
silently skips the undeclared name: with A depending only on the
undeclared ghost, resolve(A) returns [A] (omitting ghost) and raises
nothing.  This evaluates the code at the failing input. -/
theorem C3_undeclared_dependency_skipped :
    resolveExecutionOrder regGhost "A" =
      .ok [{ name := "A", depends_on := ["ghost"] }] := rfl

/-! Governance claims. -/

theorem parse_stage5_none {data : ConfigData} {cfg : GovernanceConfig}
    (h : parseGovernanceConfig data = .ok cfg) :
    cfg.stage_5_optimizer = none := by
  unfold parseGovernanceConfig at h
  repeat' split at h
  all_goals simp_all
  exact h.symm ▸ rfl

/-- An environment whose filesystem is empty (shared by witnesses whose
result does not depend on the filesystem). -/
def envTriv : Env :=
  { root := "r", fs := [], now := 0, nlink := fun _ _ => .absent }

/-- A stage-5 optimizer descriptor whose embedded stage_5_optimizer object
is complete and has minimization_verified = false: the input on which the
claim expects SEMVERX_VIOLATION. -/
def dataC1 : ConfigData :=
  [("package_name", .str "pkg"), ("version", .str "1.0"),
   ("stage", .num 5), ("timestamp", .str "2026-10-01T00:00:00Z"),
   ("stage_5_optimizer",
     .obj [("optimizer_model", .str "ast-min"),
           ("minimization_verified", .bool false),
           ("audit_enabled", .bool false)])]

/-- The GovernanceConfig _parse_governance_config builds from dataC1: the
stage_5_optimizer object of the JSON is dropped. -/
def cfgC1 : GovernanceConfig :=
  { package_name := .str "pkg", version := .str "1.0",
    timestamp := .str "2026-10-01T00:00:00Z", stage := .num 5,
    stage_type := .EXPERIMENTAL, semverx_lock := .bool false,
    entry_point := .str "", nlink_enabled := .bool false,
    custom_stages := .arr [], stage_5_optimizer := none }

/-- C1: _parse_governance_config never carries a stage_5_optimizer
attribute over from the descriptor, so for EVERY parsed config — in
particular one whose source descriptor embeds a complete stage-5
optimizer object with minimization_verified=false — the stage-5 security
check takes the hasattr-false branch and returns MISSING_GOVERNANCE,
never SEMVERX_VIOLATION.  This refutes the claim and shows the dead
minimization branch is unreachable through the parser. -/
theorem C1_stage5_check_unreachable :
    ∀ (env : Env) (data : ConfigData) (cfg : GovernanceConfig),
      parseGovernanceConfig data = .ok cfg →
      validateStage5SecurityGovernance env (some cfg) =
        .ok .MISSING_GOVERNANCE := by
  intro env data cfg h
  have h5 := parse_stage5_none h
  simp [validateStage5SecurityGovernance, h5]

/-- Witness for C1 at the claim's own failing input: the complete
stage-5 optimizer descriptor with minimization_verified=false still
yields MISSING_GOVERNANCE. -/
theorem C1_witness :
    validateStage5SecurityGovernance envTriv (some cfgC1) =
      .ok .MISSING_GOVERNANCE :=
  C1_stage5_check_unreachable envTriv dataC1 cfgC1 (by rfl)

/-- A descriptor with the four required fields and an unparseable
timestamp (and no stage_type key). -/
def dataC9 : ConfigData :=
  [("package_name", .str "p"), ("version", .str "1"),
   ("stage", .num 0), ("timestamp", .str "not-a-date")]

/-- The config parsed from dataC9. -/
def cfgC9 : GovernanceConfig :=
  { package_name := .str "p", version := .str "1",
    timestamp := .str "not-a-date", stage := .num 0,
    stage_type := .EXPERIMENTAL, semverx_lock := .bool false,
    entry_point := .str "", nlink_enabled := .bool false,
    custom_stages := .arr [], stage_5_optimizer := none }

/-- Environment holding dataC9. -/
def envC9w : Env :=
  { root := "r", fs := [("r/gov.tokenizer.stage.riftrc.0", .ok dataC9)],
    now := 0, nlink := fun _ _ => .absent }

/-- C9 (amended): for every readable descriptor with the four required
fields whose parse succeeds (in particular its stage_type, when present,
is a recognized value) and whose timestamp is a string that fails
ISO-8601 parsing after Z-normalization, validate_governance_file returns
EXPIRED together with the parsed descriptor — an unparseable timestamp is
indistinguishable in outcome from a stale one.  (With an unrecognized
stage_type the parse raises an uncaught ValueError instead; see the
counterexample.) -/
theorem C9_unparseable_timestamp_expired :
    ∀ (env : Env) (path : String) (data : ConfigData)
      (cfg : GovernanceConfig) (s : String),
      fsLookup env path = some (.ok data) →
      validateRequiredFields data = true →
      parseGovernanceConfig data = .ok cfg →
      cfg.timestamp = .str s →
      fromisoformat (pyReplaceZ s) = none →
      validateGovernanceFile env path = .ok (.EXPIRED, some cfg) := by
  intro env path data cfg s hfs hreq hparse hts hbad
  simp [validateGovernanceFile, hfs, hreq, hparse,
    validateTimestampFreshness, hts, hbad]

/-- Witness for C9 on a concrete descriptor with timestamp
"not-a-date". -/
theorem C9_witness :
    validateGovernanceFile envC9w "r/gov.tokenizer.stage.riftrc.0" =
      .ok (.EXPIRED, some cfgC9) :=
  C9_unparseable_timestamp_expired envC9w "r/gov.tokenizer.stage.riftrc.0"
    dataC9 cfgC9 "not-a-date" (by rfl) (by rfl) (by rfl) (by rfl) (by rfl)

/-- dataC9 plus an unrecognized stage_type value. -/
def dataC9bad : ConfigData :=
  [("package_name", .str "p"), ("version", .str "1"),
   ("stage", .num 0), ("timestamp", .str "not-a-date"),
   ("stage_type", .str "bogus")]

/-- Environment holding dataC9bad. -/
def envC9bad : Env :=
  { root := "r", fs := [("r/x", .ok dataC9bad)],
    now := 0, nlink := fun _ _ => .absent }

/-- C9 counterexample: a readable descriptor with all four required
fields and an unparseable timestamp string on which
validate_governance_file does NOT return EXPIRED: its stage_type value
"bogus" makes the StageType enum constructor raise ValueError, which the
function's except clause (JSONDecodeError, FileNotFoundError, KeyError)
does not catch, so the call raises instead of returning. -/
theorem C9_counterexample :
    validateGovernanceFile envC9bad "r/x" = .error .valueError := rfl

/-- C10: a custom stage entry whose "name" or "stage_id" value is present
but falsy (e.g. stage_id 0 or name "") is recorded as INVALID_SCHEMA
under the custom_ key, without ever consulting the filesystem: the
environment (hence the descriptor file, whether valid or not) is
universally quantified and the conclusion does not depend on it, so a
custom stage with stage_id 0 can never validate as anything but
INVALID_SCHEMA. -/
theorem C10_falsy_custom_stage :
    ∀ (env : Env) (entry : ConfigData),
      ((∃ v, entry.lookup "name" = some v ∧ jtruthy v = false) ∨
       (∃ v, entry.lookup "stage_id" = some v ∧ jtruthy v = false)) →
      processCustomStage env entry =
          .ok (customKeyFalsy entry, .INVALID_SCHEMA) ∧
        validateCustomStages env [entry] =
          .ok [(customKeyFalsy entry, .INVALID_SCHEMA)] := by
  intro env entry h
  have hcond : (!(truthyO (entry.lookup "name")) ||
      !(truthyO (entry.lookup "stage_id"))) = true := by
    rcases h with ⟨v, hv, hfv⟩ | ⟨v, hv, hfv⟩
    · simp [truthyO, hv, hfv]
    · simp [truthyO, hv, hfv]
  have h1 : processCustomStage env entry =
      .ok (customKeyFalsy entry, .INVALID_SCHEMA) := by
    unfold processCustomStage
    rw [hcond]
    rfl
  refine ⟨h1, ?_⟩
  simp [validateCustomStages, customStagesLoop, h1, dictInsert]

/-- A custom stage entry with a proper name and stage_id 0. -/
def entryC10 : ConfigData := [("name", .str "backlog"), ("stage_id", .num 0)]

/-- Witness for C10: the entry named backlog with stage_id 0 is recorded
as INVALID_SCHEMA. -/
theorem C10_witness :
    processCustomStage envTriv entryC10 =
      .ok ("custom_backlog", .INVALID_SCHEMA) :=
  ((C10_falsy_custom_stage envTriv entryC10
    (Or.inr ⟨.num 0, rfl, rfl⟩)).1).trans (by rfl)

/-- The reference current time of the concrete freshness instances:
2026-10-12T00:00:00 UTC on the fixed linear scale. -/
def refNow : Int := (datetimeToSec 2026 10 12 0 0 0 : Int)

/-- Path of the concrete C4 descriptors. -/
def pathC4 : String := "r/.riftrc.1"

/-- Descriptor whose trailing-Z timestamp is 90 days and 1 second older
than refNow. -/
def dataC4old : ConfigData :=
  [("package_name", .str "p"), ("version", .str "1"),
   ("stage", .num 1), ("timestamp", .str "2026-07-13T23:59:59Z")]

/-- Config parsed from dataC4old. -/
def cfgC4old : GovernanceConfig :=
  { package_name := .str "p", version := .str "1",
    timestamp := .str "2026-07-13T23:59:59Z", stage := .num 1,
    stage_type := .EXPERIMENTAL, semverx_lock := .bool false,
    entry_point := .str "", nlink_enabled := .bool false,
    custom_stages := .arr [], stage_5_optimizer := none }

/-- Environment holding dataC4old at time refNow. -/
def envC4old : Env :=
  { root := "r", fs := [(pathC4, .ok dataC4old)],
    now := refNow, nlink := fun _ _ => .absent }

/-- Descriptor whose timestamp is 89 days older than refNow. -/
def dataC4fresh : ConfigData :=
  [("package_name", .str "p"), ("version", .str "1"),
   ("stage", .num 1), ("timestamp", .str "2026-07-15T00:00:00+00:00")]

/-- Config parsed from dataC4fresh. -/
def cfgC4fresh : GovernanceConfig :=
  { package_name := .str "p", version := .str "1",
    timestamp := .str "2026-07-15T00:00:00+00:00", stage := .num 1,
    stage_type := .EXPERIMENTAL, semverx_lock := .bool false,
    entry_point := .str "", nlink_enabled := .bool false,
    custom_stages := .arr [], stage_5_optimizer := none }

/-- Environment holding dataC4fresh at time refNow. -/
def envC4fresh : Env :=
  { root := "r", fs := [(pathC4, .ok dataC4fresh)],
    now := refNow, nlink := fun _ _ => .absent }

/-- C4: for every timestamp string that parses (after normalizing the Z
suffix to a UTC offset) to an offset-aware datetime, the freshness check
reports expired exactly when now − timestamp ≥ 90 days; concretely, a
descriptor whose trailing-Z timestamp is 90 days + 1 second old is
EXPIRED, one 89 days old (and otherwise valid) is VALID, and a timestamp
in the future is never flagged as expired. -/
theorem C4_freshness_window :
    (∀ (now : Int) (s : String) (dt : PyDateTime),
        fromisoformat (pyReplaceZ s) = some dt → dt.aware = true →
        (validateTimestampFreshness now (.str s) = .ok false ↔
          90 * 86400 ≤ now - dt.sec)) ∧
    validateGovernanceFile envC4old pathC4 = .ok (.EXPIRED, some cfgC4old) ∧
    validateGovernanceFile envC4fresh pathC4 = .ok (.VALID, some cfgC4fresh) ∧
    validateTimestampFreshness refNow (.str "2027-01-01T00:00:00Z") =
      .ok true := by
  refine ⟨?_, rfl, rfl, rfl⟩
  intro now s dt hp ha
  simp [validateTimestampFreshness, hp, ha, decide_eq_false_iff_not, not_lt]

/-- The aware datetime of 2026-07-14T00:00:00Z, exactly 90 days before
refNow. -/
def dtC4 : PyDateTime :=
  { sec := (datetimeToSec 2026 7 14 0 0 0 : Int), aware := true }

/-- Witness for C4's general clause: a timestamp exactly 90 days old (so
now − timestamp ≥ 90 days with equality) is reported expired. -/
theorem C4_witness :
    validateTimestampFreshness refNow (.str "2026-07-14T00:00:00Z") =
      .ok false :=
  (C4_freshness_window.1 refNow "2026-07-14T00:00:00Z" dtC4
    (by decide) rfl).mpr (by decide)

/-- C5: the lock-compliance check is evaluated iff semverx_lock and
nlink_enabled are both true.  For a descriptor that passes schema and
freshness: with either flag false the outcome is VALID for EVERY state of
the external tool (the nlink oracle is universally quantified and absent
from the conclusion); with both flags true the outcome is VALID exactly
when the tool exits 0, and SEMVERX_VIOLATION on a non-zero exit, a
timeout, or an absent tool. -/
theorem C5_lock_gating :
    ∀ (env : Env) (path : String) (data : ConfigData)
      (cfg : GovernanceConfig),
      fsLookup env path = some (.ok data) →
      validateRequiredFields data = true →
      parseGovernanceConfig data = .ok cfg →
      validateTimestampFreshness env.now cfg.timestamp = .ok true →
      ((cfg.semverx_lock = .bool false ∨ cfg.nlink_enabled = .bool false →
          validateGovernanceFile env path = .ok (.VALID, some cfg)) ∧
       (cfg.semverx_lock = .bool true → cfg.nlink_enabled = .bool true →
          validateGovernanceFile env path =
            .ok ((if env.nlink cfg.package_name cfg.version = .exit 0
                  then ValidationResult.VALID
                  else ValidationResult.SEMVERX_VIOLATION), some cfg))) := by
  intro env path data cfg hfs hreq hparse hfresh
  constructor
  · intro hcase
    have hoff : (jtruthy cfg.semverx_lock &&
        !(validateSemverxCompliance env cfg)) = false := by
      rcases hcase with h | h
      · simp [h, jtruthy]
      · have hc : validateSemverxCompliance env cfg = true := by
          simp [validateSemverxCompliance, h, jtruthy]
        simp [hc]
    simp [validateGovernanceFile, hfs, hreq, hparse, hfresh, hoff]
  · intro hl hn
    have hcomp : validateSemverxCompliance env cfg =
        decide (env.nlink cfg.package_name cfg.version = .exit 0) := by
      unfold validateSemverxCompliance
      rw [hn]
      simp only [jtruthy, Bool.not_true, Bool.false_eq_true, if_false]
      cases ho : env.nlink cfg.package_name cfg.version with
      | exit c =>
        by_cases hc : c = 0
        · simp [hc]
        · simp [hc]
      | timeout => simp
      | absent => simp
    by_cases ho : env.nlink cfg.package_name cfg.version = .exit 0
    · simp [validateGovernanceFile, hfs, hreq, hparse, hfresh, hcomp, ho, hl,
        jtruthy]
    · simp [validateGovernanceFile, hfs, hreq, hparse, hfresh, hcomp, ho, hl,
        jtruthy]

/-- Descriptor with semverx_lock and nlink_enabled both true. -/
def dataC5 : ConfigData :=
  [("package_name", .str "p"), ("version", .str "1"),
   ("stage", .num 0), ("timestamp", .str "2026-10-01T00:00:00Z"),
   ("semverx_lock", .bool true), ("nlink_enabled", .bool true)]

/-- Config parsed from dataC5. -/
def cfgC5 : GovernanceConfig :=
  { package_name := .str "p", version := .str "1",
    timestamp := .str "2026-10-01T00:00:00Z", stage := .num 0,
    stage_type := .EXPERIMENTAL, semverx_lock := .bool true,
    entry_point := .str "", nlink_enabled := .bool true,
    custom_stages := .arr [], stage_5_optimizer := none }

/-- Environment holding dataC5, with the nlink tool exiting 0. -/
def envC5 : Env :=
  { root := "r", fs := [("r/.riftrc.0", .ok dataC5)],
    now := refNow, nlink := fun _ _ => .exit 0 }

/-- Witness for C5: with both flags true and the tool exiting 0, the
descriptor is VALID. -/
theorem C5_witness :
    validateGovernanceFile envC5 "r/.riftrc.0" = .ok (.VALID, some cfgC5) :=
  (((C5_lock_gating envC5 "r/.riftrc.0" dataC5 cfgC5 (by rfl) (by rfl)
    (by rfl) (by rfl)).2) rfl rfl).trans (by rfl)

/-- C8 (amended): when a substage descriptor is absent, a fallback
descriptor's validation outcome (or raised exception) is propagated
unchanged; with no fallback and no primary the outcome is
MISSING_GOVERNANCE; with no fallback and a READABLE primary the outcome is
VALID exactly when the primary declares stage_type "experimental" and
MISSING_GOVERNANCE otherwise.  (A present but malformed primary instead
raises an uncaught JSONDecodeError; see the counterexample.) -/
theorem C8_missing_governance_fallback :
    ∀ (env : Env) (stageId : Nat) (sub : String),
      ((fsLookup env (fallbackPath env stageId sub)).isSome →
        handleMissingGovernance env stageId sub =
          (validateGovernanceFile env (fallbackPath env stageId sub)).map
            Prod.fst) ∧
      (fsLookup env (fallbackPath env stageId sub) = none →
        (fsLookup env (primaryPath env stageId) = none →
          handleMissingGovernance env stageId sub = .ok .MISSING_GOVERNANCE) ∧
        (∀ data, fsLookup env (primaryPath env stageId) = some (.ok data) →
          handleMissingGovernance env stageId sub =
            .ok (if isExperimentalTag (data.lookup "stage_type")
                 then .VALID else .MISSING_GOVERNANCE))) := by
  intro env stageId sub
  constructor
  · intro hsome
    unfold handleMissingGovernance
    cases hfb : fsLookup env (fallbackPath env stageId sub) with
    | none => rw [hfb] at hsome; simp at hsome
    | some fd =>
      cases hv : validateGovernanceFile env (fallbackPath env stageId sub) with
      | error e => simp [hv, Except.map]
      | ok p => obtain ⟨r, c⟩ := p; simp [hv, Except.map]
  · intro hnone
    constructor
    · intro hpn
      simp [handleMissingGovernance, hnone, hpn]
    · intro data hpd
      by_cases hexp : isExperimentalTag (data.lookup "stage_type") <;>
        simp [handleMissingGovernance, hnone, hpd, hexp]

/-- Environment with a malformed primary descriptor for stage 2 and no
fallback. -/
def envC8cex : Env :=
  { root := "r", fs := [("r/.riftrc.2", .error ())],
    now := 0, nlink := fun _ _ => .absent }

/-- C8 counterexample: the semantic substage descriptor of stage 2 is
absent, no fallback exists, and the primary descriptor exists but is
malformed JSON — a case the claim classifies as MISSING_GOVERNANCE
("primary present but not experimental") — yet _handle_missing_governance
raises an uncaught JSONDecodeError instead of returning an outcome. -/
theorem C8_counterexample :
    handleMissingGovernance envC8cex 2 "semantic" = .error .jsonDecodeError :=
  rfl

/-- Environment with a malformed FALLBACK descriptor for the semantic
substage of stage 2. -/
def envC8w : Env :=
  { root := "r", fs := [("r/irift/gov.semantic.stage.riftrc.2", .error ())],
    now := 0, nlink := fun _ _ => .absent }

/-- Witness for C8: a malformed fallback descriptor validates as
INVALID_SCHEMA and that outcome is propagated unchanged. -/
theorem C8_witness :
    handleMissingGovernance envC8w 2 "semantic" = .ok .INVALID_SCHEMA :=
  ((C8_missing_governance_fallback envC8w 2 "semantic").1 (by rfl)).trans
    (by rfl)

/-- Stage-3 validator descriptor that validates as EXPIRED (its timestamp
string never parses, which the freshness check folds into expiry; see
C9). -/
def dataC2 : ConfigData :=
  [("package_name", .str "p"), ("version", .str "1"),
   ("stage", .num 3), ("timestamp", .str "garbage")]

/-- Environment whose only descriptor is the EXPIRED stage-3 validator
descriptor; stages 0-2 produce only MISSING_GOVERNANCE fallbacks (not
critical). -/
def envC2 : Env :=
  { root := "r", fs := [("r/gov.validator.stage.riftrc.3", .ok dataC2)],
    now := refNow, nlink := fun _ _ => .absent }

/-- C2 (amended): for every environment in which stages 0-2 validate
without SEMVERX_VIOLATION or EXPIRED outcomes and stage 3 produces an
EXPIRED outcome, validate_complete_pipeline processes stages 0-3 and then
raises the build-halt RuntimeError at stage 3: stages 4-6 are never
evaluated (the loop stops at the raise without touching the stage 4-6
evaluations) and NO result — hence no
report and no overall_status — is produced. -/
theorem C2_pipeline_halt_at_stage3 :
    ∀ (env : Env) (r0 r1 r2 r3 : List (String × ValidationResult)),
      validateStageGovernance env 0 = .ok r0 →
      validateStageGovernance env 1 = .ok r1 →
      validateStageGovernance env 2 = .ok r2 →
      validateStageGovernance env 3 = .ok r3 →
      hasCriticalFailure r0 = false →
      hasCriticalFailure r1 = false →
      hasCriticalFailure r2 = false →
      ValidationResult.EXPIRED ∈ r3.map Prod.snd →
      validateCompletePipeline env = .error (.runtimeHalt 3) := by
  intro env r0 r1 r2 r3 h0 h1 h2 h3 c0 c1 c2 hex
  have c3 : hasCriticalFailure r3 = true := by
    rcases List.mem_map.mp hex with ⟨p, hp, hpe⟩
    unfold hasCriticalFailure
    rw [List.any_eq_true]
    exact ⟨p, hp, by simp [hpe]⟩
  unfold validateCompletePipeline
  simp [pipelineGo, h0, h1, h2, h3, c0, c1, c2, c3]

/-- C2 counterexample: with stage 3's descriptor EXPIRED and stages 0-2
clean, generate_governance_report produces NO report at all — the
build-halt RuntimeError raised after stage 3's scan propagates through
it — so the report the claim asserts (stages 4-6 absent, overall_status
EXPIRED_GOVERNANCE) is never constructed; overall_status is never
computed. -/
theorem C2_counterexample :
    generateGovernanceReport envC2 = .error (.runtimeHalt 3) := rfl

/-- Witness for C2 at the concrete environment: stages 0-2 yield only
missing-governance fallbacks, stage 3 yields EXPIRED for the validator
substage, and the pipeline raises the stage-3 build halt. -/
theorem C2_witness :
    validateCompletePipeline envC2 = .error (.runtimeHalt 3) :=
  C2_pipeline_halt_at_stage3 envC2
    [("tokenizer_fallback", .MISSING_GOVERNANCE)]
    [("parser_fallback", .MISSING_GOVERNANCE)]
    [("semantic_fallback", .MISSING_GOVERNANCE)]
    [("validator_governance", .EXPIRED)]
    (by rfl) (by rfl) (by rfl) (by rfl) (by rfl) (by rfl) (by rfl)
    (by decide)

end Rift
